import Mathlib

/-!
Verification of the storage-path resolution and retention subsystem of
`sd_http_server.cpp` (an SD-card HTTP file server for an embedded board).

The filesystem (`SD_MMC`) is modelled abstractly: `openOk p` says whether
`SD_MMC.open(p)` yields a truthy handle, `listDir p` gives the directory
entries enumerated by repeated `openNextFile()` on the handle opened at `p`,
and `isDirAt p` is the `isDirectory()` flag of the handle opened at `p`.
An opened handle is identified with the path that opened it, so functions
that return a `File` are embedded as functions returning `Option String`
(the successfully opened path, or `none` for a falsy `File()`).

String operations mirror the Arduino `String` API on the character list:
`substring(n)` is dropping `n` characters, `startsWith` is list-prefix test,
`operator<` used by `std::sort` is lexicographic character order.
-/

namespace SdWs

/-- Arduino `String::startsWith(p)`: `p` is a prefix of `s`. -/
def sstarts (s p : String) : Bool :=
  p.data.isPrefixOf s.data

/-- Arduino `String::substring(n)` (to end of string): drop the first `n`
characters. -/
def sdrop (s : String) (n : Nat) : String :=
  ⟨s.data.drop n⟩

/-- `lastIndexOf('/')` followed by `substring(lastSlash + 1)` when a slash is
present: the final path segment, with all directory prefixes removed.  This is
both the base-name reduction performed by `sdws_enforceRetentionPolicy` and
`handleDownload`, and the spec glossary's "basename". -/
def basenameStr (s : String) : String :=
  ⟨(s.data.reverse.takeWhile (fun c => c ≠ '/')).reverse⟩

/-- One entry produced by `openNextFile()` during a directory scan:
its reported name, its `isDirectory()` flag and its `size()`. -/
structure DirEntry where
  name : String
  isDir : Bool
  size : Nat
deriving DecidableEq

/-- Abstract state of the `SD_MMC` volume, as observed by this module. -/
structure SdFS where
  /-- `SD_MMC.cardType() != CARD_NONE`. -/
  mounted : Bool
  /-- whether `SD_MMC.open(p)` returns a truthy handle. -/
  openOk : String → Bool
  /-- the entries enumerated by `openNextFile()` on the handle opened at `p`. -/
  listDir : String → List DirEntry
  /-- the `isDirectory()` flag of the handle opened at `p`. -/
  isDirAt : String → Bool

/-- The `countFiles` lambda inside `detectSdRoot`: open `path`; on failure
report 0, otherwise count the non-directory entries of the scan. -/
def countFiles (fs : SdFS) (path : String) : Nat :=
  if fs.openOk path then ((fs.listDir path).filter (fun e => !e.isDir)).length
  else 0

/-- `detectSdRoot()`: `none` when the card is absent; otherwise count files
under `"/"` and `"/sdcard"`; when both counts are zero fall back to whichever
of `"/sdcard"` (first) and `"/"` opens at all; otherwise prefer `"/"` exactly
when its count is at least the `"/sdcard"` count.  The C++ returns the empty
string for "no root", embedded here as `none`. -/
def detectSdRoot (fs : SdFS) : Option String :=
  if fs.mounted = false then none
  else
    let cntRoot := countFiles fs "/"
    let cntSdcard := countFiles fs "/sdcard"
    if cntRoot = 0 ∧ cntSdcard = 0 then
      if fs.openOk "/sdcard" then some "/sdcard"
      else if fs.openOk "/" then some "/"
      else none
    else if cntSdcard ≤ cntRoot then some "/"
    else some "/sdcard"

/-- Arduino `String::endsWith(p)`: `p` is a suffix of `s`. -/
def sends (s p : String) : Bool :=
  p.data.isSuffixOf s.data

/-- `getContentType`: map a file-name suffix to a MIME type. -/
def getContentType (path : String) : String :=
  if sends path ".htm" || sends path ".html" then "text/html"
  else if sends path ".css" then "text/css"
  else if sends path ".js" then "application/javascript"
  else if sends path ".png" then "image/png"
  else if sends path ".jpg" || sends path ".jpeg" then "image/jpeg"
  else if sends path ".gif" then "image/gif"
  else if sends path ".txt" then "text/plain"
  else "application/octet-stream"

/-- The `while (f.startsWith("./")) f = f.substring(2);` normalization loop of
`openFileWithPrefixes`, on the character list. -/
def stripDotSlash : List Char → List Char
  | '.' :: '/' :: rest => stripDotSlash rest
  | l => l

/-- Normalization applied to the requested file parameter: repeatedly remove a
leading `"./"`. -/
def normalizeReq (s : String) : String :=
  ⟨stripDotSlash s.data⟩

/-- `openFileWithPrefixes(reqFile)`: try an ordered cascade of candidate paths
and return the first one that opens (the returned handle is identified with the
path that opened it); `none` when the request is empty or every candidate
fails.  Each `if (cond) { open; if (ok) return; }` early-return block of the
source becomes one `else if cond && openOk` arm. -/
def openFileWithPrefixes (fs : SdFS) (reqFile : String) : Option String :=
  if reqFile.length = 0 then none
  else
    let f := normalizeReq reqFile
    -- 1) try as-provided
    if fs.openOk f then some f
    -- 2) try /sdcard/<f> (if no leading slash)
    else if !(sstarts f "/") && fs.openOk ("/sdcard/" ++ f) then
      some ("/sdcard/" ++ f)
    -- 3) try /<f>
    else if !(sstarts f "/") && fs.openOk ("/" ++ f) then
      some ("/" ++ f)
    -- 4) absolute path failed: trim the leading slash, retry under /sdcard/
    --    then under /
    else if sstarts f "/" && fs.openOk ("/sdcard/" ++ sdrop f 1) then
      some ("/sdcard/" ++ sdrop f 1)
    else if sstarts f "/" && fs.openOk ("/" ++ sdrop f 1) then
      some ("/" ++ sdrop f 1)
    -- 5) try detectSdRoot + "/" + f-without-leading-slash
    else
      match detectSdRoot fs with
      | none => none
      | some root =>
        let base := if sstarts f "/" then sdrop f 1 else f
        if fs.openOk (root ++ "/" ++ base) then some (root ++ "/" ++ base)
        else none

/-- The candidates attempted by resolution steps 1-4, in order, for a
normalized request `f`. -/
def candidates14 (f : String) : List String :=
  [f] ++
  (if !(sstarts f "/") then ["/sdcard/" ++ f, "/" ++ f] else []) ++
  (if sstarts f "/" then ["/sdcard/" ++ sdrop f 1, "/" ++ sdrop f 1] else [])

/-- The step-5 last-resort candidate: the detected root joined with the
request stripped of a single leading slash (when a root is detected). -/
def step5Candidate (fs : SdFS) (f : String) : Option String :=
  (detectSdRoot fs).map
    (fun root => root ++ "/" ++ (if sstarts f "/" then sdrop f 1 else f))

/-- The full ordered candidate list of the resolution cascade for a
normalized request `f`. -/
def resolveCandidates (fs : SdFS) (f : String) : List String :=
  candidates14 f ++
  (match step5Candidate fs f with
   | none => []
   | some c => [c])

/-- First-success semantics over a candidate list: return the first
candidate that opens. -/
def firstOpen (fs : SdFS) : List String → Option String
  | [] => none
  | c :: cs => if fs.openOk c then some c else firstOpen fs cs

/-- The responses `handleDownload` can send. -/
inductive DownloadResponse where
  /-- 400 "Missing file parameter". -/
  | badRequest
  /-- 404 "File not found". -/
  | notFound
  /-- `streamFile` of the opened path with the given Content-Type and
  Content-Disposition filename. -/
  | streamed (path contentType filename : String)
deriving DecidableEq

/-- `handleDownload()`: the sent response paired with the list of handle paths
closed before returning.  A missing `file` argument is `arg = none`.  The
resolver's result is a directory exactly when `isDirAt` holds of the opened
path; in that case the handler sends 404 and closes the handle instead of
streaming it. -/
def handleDownload (fs : SdFS) (arg : Option String) :
    DownloadResponse × List String :=
  match arg with
  | none => (.badRequest, [])
  | some filePath =>
    match openFileWithPrefixes fs filePath with
    | none => (.notFound, [])
    | some p =>
      if fs.isDirAt p then (.notFound, [p])
      else (.streamed p (getContentType filePath) (basenameStr filePath), [p])

/-- The relativization `handleSnap` applies to the path returned by
`captureAndSave` before embedding it as the `file` parameter of the download
link: strip a leading `"/sdcard/"` if present, then strip a single leading
`"/"` if (still) present. -/
def snapRel (saved : String) : String :=
  let rel := saved
  let rel := if sstarts rel "/sdcard/" then sdrop rel ("/sdcard/".length)
             else rel
  let rel := if sstarts rel "/" then sdrop rel 1 else rel
  rel

/-- Modelled from the spec (claim side): "strips a leading `/sdcard/` prefix
if present and otherwise a single leading `/`" — the two strips read as
mutually exclusive alternatives. -/
def snapRelClaim (saved : String) : String :=
  if sstarts saved "/sdcard/" then sdrop saved ("/sdcard/".length)
  else if sstarts saved "/" then sdrop saved 1
  else saved

/-- The base names of the non-directory entries directly under `root`:
what the retention scan collects into its `files` vector. -/
def baseNames (fs : SdFS) (root : String) : List String :=
  ((fs.listDir root).filter (fun e => !e.isDir)).map
    (fun e => basenameStr e.name)

/-- `sdws_enforceRetentionPolicy()`, with the process-wide
`s_maxFilesToKeep` passed explicitly.  Returns the list of paths handed to
`SD_MMC.remove`, in removal order (deletion failures are ignored by the
source, so the attempted removals are the observable effect). -/
def sdws_enforceRetentionPolicy (maxKeep : Nat) (fs : SdFS) : List String :=
  if maxKeep = 0 then []
  else
    match detectSdRoot fs with
    | none => []
    | some root =>
      if fs.openOk root = false then []
      else
        let files := baseNames fs root
        if files.length ≤ maxKeep then []
        else
          let sorted := List.insertionSort (fun a b : String => a ≤ b) files
          let toRemove := files.length - maxKeep
          (sorted.take toRemove).map (fun n => root ++ "/" ++ n)

/-- A directory tree on the volume, used to model the recursive listers:
a handle's `openNextFile()` scan enumerates the children in order, and
recursing into a directory entry (or reopening its full path, as the serial
lister does) enumerates that entry's own children. -/
inductive FsTree where
  | file (name : String) (size : Nat)
  | dir (name : String) (children : List FsTree)

/-- `printDirectoryHtmlAt(dir, out)`: the HTML fragments appended to `out`,
in order.  A directory contributes its bold header and then, recursively, the
fragments of its children; a file contributes its download link with size. -/
def printDirectoryHtmlAt : List FsTree → List String
  | [] => []
  | .dir n cs :: rest =>
    ("<b>" ++ n ++ "/</b><br>") ::
      (printDirectoryHtmlAt cs ++ printDirectoryHtmlAt rest)
  | .file n sz :: rest =>
    ("<a href=\"/download?file=" ++ n ++ "\">" ++ n ++ "</a> (" ++
        toString sz ++ " bytes)<br>") ::
      printDirectoryHtmlAt rest

/-- `printDirectorySerial(dir, prefix)`: the lines printed to Serial, in
order.  Each entry is annotated with its full accumulated path; a directory
line is followed, recursively, by the lines of the subtree reopened at that
full path. -/
def printDirectorySerial (pre : String) : List FsTree → List String
  | [] => []
  | .dir n cs :: rest =>
    ("DIR  : " ++ (if pre.length ≠ 0 then pre ++ "/" ++ n else n)) ::
      (printDirectorySerial (if pre.length ≠ 0 then pre ++ "/" ++ n else n) cs
        ++ printDirectorySerial pre rest)
  | .file n sz :: rest =>
    ("FILE : " ++ (if pre.length ≠ 0 then pre ++ "/" ++ n else n) ++ "  (" ++
        toString sz ++ " bytes)") ::
      printDirectorySerial pre rest

/-- One entry of the Directory Lister's contract sequence: bare entry name,
full accumulated path, directory flag and size (sizes are reported for
non-directory entries; a directory entry carries 0). -/
structure ListedEntry where
  name : String
  path : String
  isDir : Bool
  size : Nat
deriving DecidableEq

/-- Modelled from the spec: `list(root)` — the depth-first pre-order
enumeration of the tree: each entry is reported once, a directory immediately
before the entries of its children (into which the traversal recurses), a
file together with its size; paths accumulate from the prefix `pre`. -/
def listContract (pre : String) : List FsTree → List ListedEntry
  | [] => []
  | .dir n cs :: rest =>
    ⟨n, if pre.length ≠ 0 then pre ++ "/" ++ n else n, true, 0⟩ ::
      (listContract (if pre.length ≠ 0 then pre ++ "/" ++ n else n) cs
        ++ listContract pre rest)
  | .file n sz :: rest =>
    ⟨n, if pre.length ≠ 0 then pre ++ "/" ++ n else n, false, sz⟩ ::
      listContract pre rest

/-- The HTML rendering of one contract entry (uses the bare entry name, as
the HTML lister does). -/
def renderHtmlEntry (e : ListedEntry) : String :=
  if e.isDir then "<b>" ++ e.name ++ "/</b><br>"
  else "<a href=\"/download?file=" ++ e.name ++ "\">" ++ e.name ++ "</a> (" ++
    toString e.size ++ " bytes)<br>"

/-- The serial rendering of one contract entry (uses the full accumulated
path, as the serial lister does). -/
def renderSerialEntry (e : ListedEntry) : String :=
  if e.isDir then "DIR  : " ++ e.path
  else "FILE : " ++ e.path ++ "  (" ++ toString e.size ++ " bytes)"

/-! Concrete volume states used to instantiate the theorems. -/

/-- A volume whose files live under `/sdcard`: one file `b` there, and both
`/` and `/sdcard` open as directories. -/
def exFs5 : SdFS :=
  { mounted := true
    openOk := fun p => p == "/" || p == "/sdcard" || p == "/sdcard/b"
    listDir := fun p => if p == "/sdcard" then [⟨"b", false, 10⟩] else []
    isDirAt := fun p => p == "/" || p == "/sdcard" }

/-- A volume mounted at `/` holding four image files and one subdirectory
directly under the root. -/
def exFs3 : SdFS :=
  { mounted := true
    openOk := fun p => p == "/"
    listDir := fun p =>
      if p == "/" then
        [⟨"c.jpg", false, 1⟩, ⟨"a.jpg", false, 2⟩, ⟨"d", true, 0⟩,
         ⟨"b.jpg", false, 3⟩, ⟨"d.jpg", false, 9⟩]
      else []
    isDirAt := fun p => p == "/" }

/-- A mounted but empty volume on which both `/` and `/sdcard` open. -/
def exFs4 : SdFS :=
  { mounted := true
    openOk := fun p => p == "/" || p == "/sdcard"
    listDir := fun _ => []
    isDirAt := fun p => p == "/" || p == "/sdcard" }

/-- A mounted volume on which no path opens at all. -/
def exFsClosed : SdFS :=
  { mounted := true
    openOk := fun _ => false
    listDir := fun _ => []
    isDirAt := fun _ => false }

/-- A volume holding a freshly captured image at `/sdcard/img_1.jpg`; the
bare relative name does not open. -/
def exFsSnap : SdFS :=
  { mounted := true
    openOk := fun p => p == "/sdcard" || p == "/sdcard/img_1.jpg"
    listDir := fun p =>
      if p == "/sdcard" then [⟨"img_1.jpg", false, 4096⟩] else []
    isDirAt := fun p => p == "/sdcard" }

/-- A volume on which the path `/sub` opens and is a directory. -/
def exFsDir : SdFS :=
  { mounted := true
    openOk := fun p => p == "/sub"
    listDir := fun _ => []
    isDirAt := fun p => p == "/sub" }

/-! Helper lemmas shared by the claim theorems. -/

/-- `firstOpen` exhausts a candidate list exactly when no candidate opens. -/
theorem firstOpen_eq_none (fs : SdFS) (l : List String) :
    firstOpen fs l = none ↔ ∀ c ∈ l, fs.openOk c = false := by
  induction l with
  | nil => simp [firstOpen]
  | cons c cs ih => by_cases h : fs.openOk c <;> simp [firstOpen, h, ih]

/-- `firstOpen` on an appended candidate list tries the left segment first. -/
theorem firstOpen_append (fs : SdFS) (l1 l2 : List String) :
    firstOpen fs (l1 ++ l2) =
      match firstOpen fs l1 with
      | some c => some c
      | none => firstOpen fs l2 := by
  induction l1 with
  | nil => simp [firstOpen]
  | cons c cs ih => by_cases h : fs.openOk c <;> simp [firstOpen, h, ih]

/-- The branching cascade of `openFileWithPrefixes` is first-success
resolution over the ordered candidate list `resolveCandidates`. -/
theorem openFileWithPrefixes_eq_firstOpen (fs : SdFS) (reqFile : String)
    (hne : reqFile.length ≠ 0) :
    openFileWithPrefixes fs reqFile =
      firstOpen fs (resolveCandidates fs (normalizeReq reqFile)) := by
  unfold openFileWithPrefixes resolveCandidates candidates14 step5Candidate
  rw [if_neg hne]
  by_cases hs : sstarts (normalizeReq reqFile) "/" <;>
    cases hdet : detectSdRoot fs <;>
      simp [hs, hdet, firstOpen]

/-- Arduino `startsWith`: a string starts with the prefix it was built
from. -/
theorem sstarts_append (p x : String) : sstarts (p ++ x) p = true := by
  unfold sstarts
  rw [String.data_append]
  exact List.isPrefixOf_iff_prefix.mpr (List.prefix_append p.data x.data)

/-- Arduino `substring`: dropping a prefix's length recovers the rest. -/
theorem sdrop_append (p x : String) : sdrop (p ++ x) p.length = x := by
  unfold sdrop
  rw [String.data_append]
  show String.mk (List.drop p.data.length (p.data ++ x.data)) = x
  rw [List.drop_left]

/-- A nonzero `countFiles` can only come from a path that opened. -/
theorem countFiles_ne_zero_openOk (fs : SdFS) (p : String)
    (h : countFiles fs p ≠ 0) : fs.openOk p = true := by
  unfold countFiles at h
  by_cases ho : fs.openOk p = true
  · exact ho
  · rw [if_neg ho] at h
    exact absurd rfl h

/-- Any root returned by `detectSdRoot` opens: a populated winner has a
nonzero count (so it opened), and the empty-volume fallback returns only a
candidate it just opened. -/
theorem detectSdRoot_openOk (fs : SdFS) (root : String)
    (h : detectSdRoot fs = some root) : fs.openOk root = true := by
  unfold detectSdRoot at h
  by_cases hm : fs.mounted = false
  · rw [if_pos hm] at h
    exact absurd h (by simp)
  · rw [if_neg hm] at h
    simp only at h
    by_cases hz : countFiles fs "/" = 0 ∧ countFiles fs "/sdcard" = 0
    · rw [if_pos hz] at h
      by_cases hsd : fs.openOk "/sdcard" = true
      · rw [if_pos hsd] at h
        cases h
        exact hsd
      · rw [if_neg hsd] at h
        by_cases hr : fs.openOk "/" = true
        · rw [if_pos hr] at h
          cases h
          exact hr
        · rw [if_neg hr] at h
          exact absurd h (by simp)
    · rw [if_neg hz] at h
      by_cases hle : countFiles fs "/sdcard" ≤ countFiles fs "/"
      · rw [if_pos hle] at h
        cases h
        refine countFiles_ne_zero_openOk fs "/" (fun h0 => hz ⟨h0, ?_⟩)
        omega
      · rw [if_neg hle] at h
        cases h
        refine countFiles_ne_zero_openOk fs "/sdcard" (fun h0 => ?_)
        omega

/-- The HTML lister emits exactly the pre-order contract sequence, each
entry rendered with its bare name. -/
theorem printDirectoryHtmlAt_eq (pre : String) (ts : List FsTree) :
    printDirectoryHtmlAt ts = (listContract pre ts).map renderHtmlEntry := by
  induction pre, ts using listContract.induct with
  | case1 pre => simp [printDirectoryHtmlAt, listContract]
  | case2 pre n cs rest ih1 ih2 =>
    simp [printDirectoryHtmlAt, listContract, renderHtmlEntry, ih1, ih2]
  | case3 pre n sz rest ih =>
    simp [printDirectoryHtmlAt, listContract, renderHtmlEntry, ih]

/-- The serial lister emits exactly the pre-order contract sequence, each
entry rendered with its full accumulated path. -/
theorem printDirectorySerial_eq (pre : String) (ts : List FsTree) :
    printDirectorySerial pre ts =
      (listContract pre ts).map renderSerialEntry := by
  induction pre, ts using listContract.induct with
  | case1 pre => simp [printDirectorySerial, listContract]
  | case2 pre n cs rest ih1 ih2 =>
    simp only [dite_eq_ite, ne_eq, ite_not] at ih1
    simp [printDirectorySerial, listContract, renderSerialEntry, ih1, ih2]
  | case3 pre n sz rest ih =>
    simp [printDirectorySerial, listContract, renderSerialEntry, ih]

/-! The claims. -/

/-- Claim C1: for every non-empty requested file reference, the resolver
attempts, in order, (1) the normalized input verbatim, (2)-(3) the
`/sdcard/` and `/` prefixings when the input has no leading slash, (4) the
slash-stripped input under `/sdcard/` and then `/` when it has one, and
finally the step-5 last resort, returning the first successfully opened
handle; it yields not-found exactly when every candidate of the cascade
(the step-5 last resort included) fails to open. -/
theorem resolver_candidate_cascade (fs : SdFS) (reqFile : String)
    (hne : reqFile.length ≠ 0) :
    openFileWithPrefixes fs reqFile =
      firstOpen fs (resolveCandidates fs (normalizeReq reqFile)) ∧
    (openFileWithPrefixes fs reqFile = none ↔
      ∀ c ∈ resolveCandidates fs (normalizeReq reqFile),
        fs.openOk c = false) := by
  have h := openFileWithPrefixes_eq_firstOpen fs reqFile hne
  exact ⟨h, by rw [h]; exact firstOpen_eq_none fs _⟩

theorem resolver_candidate_cascade_witness :
    "b".length ≠ 0 ∧
    (openFileWithPrefixes exFs5 "b" =
        firstOpen exFs5 (resolveCandidates exFs5 (normalizeReq "b")) ∧
      (openFileWithPrefixes exFs5 "b" = none ↔
        ∀ c ∈ resolveCandidates exFs5 (normalizeReq "b"),
          exFs5.openOk c = false)) :=
  ⟨by decide, resolver_candidate_cascade exFs5 "b" (by decide)⟩

/-- Claim C2: whenever the volume is mounted and at least one of the two
candidate file counts is nonzero, `detectSdRoot` returns `"/"` exactly when
the count under `"/"` is at least the count under `"/sdcard"`, and returns
`"/sdcard"` exactly otherwise. -/
theorem detectSdRoot_populated (fs : SdFS)
    (hm : fs.mounted = true)
    (hnz : ¬ (countFiles fs "/" = 0 ∧ countFiles fs "/sdcard" = 0)) :
    (detectSdRoot fs = some "/" ↔
      countFiles fs "/sdcard" ≤ countFiles fs "/") ∧
    (detectSdRoot fs = some "/sdcard" ↔
      countFiles fs "/" < countFiles fs "/sdcard") := by
  unfold detectSdRoot
  rw [hm]
  simp only [Bool.true_eq_false, if_false, if_neg hnz]
  by_cases hle : countFiles fs "/sdcard" ≤ countFiles fs "/"
  · simp [hle, Nat.not_lt.mpr hle]
  · simp [hle, Nat.lt_of_not_le hle]

theorem detectSdRoot_populated_witness :
    exFs5.mounted = true ∧
    ¬ (countFiles exFs5 "/" = 0 ∧ countFiles exFs5 "/sdcard" = 0) ∧
    ((detectSdRoot exFs5 = some "/" ↔
        countFiles exFs5 "/sdcard" ≤ countFiles exFs5 "/") ∧
      (detectSdRoot exFs5 = some "/sdcard" ↔
        countFiles exFs5 "/" < countFiles exFs5 "/sdcard")) :=
  ⟨by decide, by decide,
    detectSdRoot_populated exFs5 (by decide) (by decide)⟩

/-- Claim C3: for a positive limit and more than limit-many non-directory
entries directly under the detected root, the retention enforcer deletes
(as `root/name` removal requests) exactly the lexicographically smallest
`count - limit` base names: the deleted block and a kept block of size
`limit` partition the base names, the deleted block is sorted, and every
deleted name is lexicographically at most every kept name. -/
theorem enforce_deletes_lex_smallest (fs : SdFS) (maxKeep : Nat)
    (root : String)
    (hk : 0 < maxKeep)
    (hroot : detectSdRoot fs = some root)
    (hover : maxKeep < (baseNames fs root).length) :
    ∃ deleted kept : List String,
      sdws_enforceRetentionPolicy maxKeep fs =
        deleted.map (fun n => root ++ "/" ++ n) ∧
      deleted.length = (baseNames fs root).length - maxKeep ∧
      kept.length = maxKeep ∧
      (deleted ++ kept).Perm (baseNames fs root) ∧
      List.Sorted (fun a b : String => a ≤ b) deleted ∧
      (∀ d ∈ deleted, ∀ k ∈ kept, d ≤ k) := by
  have hopen := detectSdRoot_openOk fs root hroot
  set files := baseNames fs root with hfiles
  set sorted := List.insertionSort (fun a b : String => a ≤ b) files
    with hsorted
  have hslen : sorted.length = files.length :=
    List.length_insertionSort _ files
  have hsort : List.Sorted (fun a b : String => a ≤ b) sorted :=
    List.sorted_insertionSort _ files
  have hperm : sorted.Perm files := List.perm_insertionSort _ files
  set toRemove := files.length - maxKeep with htr
  refine ⟨sorted.take toRemove, sorted.drop toRemove, ?_, ?_, ?_, ?_, ?_, ?_⟩
  · unfold sdws_enforceRetentionPolicy
    rw [if_neg (Nat.pos_iff_ne_zero.mp hk), hroot]
    simp only [hopen, Bool.true_eq_false, if_false, ← hfiles,
      if_neg (Nat.not_le.mpr hover), ← hsorted, ← htr]
  · rw [List.length_take, hslen]
    omega
  · rw [List.length_drop, hslen]
    omega
  · rw [List.take_append_drop]
    exact hperm
  · exact List.Pairwise.sublist (List.take_sublist toRemove sorted) hsort
  · have hpw : List.Pairwise (fun a b : String => a ≤ b)
        (sorted.take toRemove ++ sorted.drop toRemove) := by
      rw [List.take_append_drop]
      exact hsort
    exact (List.pairwise_append.mp hpw).2.2

theorem enforce_deletes_lex_smallest_witness :
    0 < 2 ∧ detectSdRoot exFs3 = some "/" ∧
    2 < (baseNames exFs3 "/").length ∧
    (∃ deleted kept : List String,
      sdws_enforceRetentionPolicy 2 exFs3 =
        deleted.map (fun n => "/" ++ "/" ++ n) ∧
      deleted.length = (baseNames exFs3 "/").length - 2 ∧
      kept.length = 2 ∧
      (deleted ++ kept).Perm (baseNames exFs3 "/") ∧
      List.Sorted (fun a b : String => a ≤ b) deleted ∧
      (∀ d ∈ deleted, ∀ k ∈ kept, d ≤ k)) :=
  ⟨by decide, by decide, by decide,
    enforce_deletes_lex_smallest exFs3 2 "/" (by decide) (by decide)
      (by decide)⟩

/-- Claim C4: when the volume is mounted and both candidate file counts are
zero, `detectSdRoot` prefers whichever candidate opens at all, `"/sdcard"`
first (even when `"/"` would also open), then `"/"`, else no root — the
empty-volume fallback tie-break is the reverse of the populated case. -/
theorem detectSdRoot_emptyFallback (fs : SdFS)
    (hm : fs.mounted = true)
    (h1 : countFiles fs "/" = 0)
    (h2 : countFiles fs "/sdcard" = 0) :
    detectSdRoot fs =
      (if fs.openOk "/sdcard" then some "/sdcard"
       else if fs.openOk "/" then some "/" else none) := by
  unfold detectSdRoot
  rw [hm]
  simp [h1, h2]

theorem detectSdRoot_emptyFallback_witness :
    exFs4.mounted = true ∧
    countFiles exFs4 "/" = 0 ∧ countFiles exFs4 "/sdcard" = 0 ∧
    exFs4.openOk "/" = true ∧
    detectSdRoot exFs4 =
      (if exFs4.openOk "/sdcard" then some "/sdcard"
       else if exFs4.openOk "/" then some "/" else none) :=
  ⟨by decide, by decide, by decide, by decide,
    detectSdRoot_emptyFallback exFs4 (by decide) (by decide) (by decide)⟩

/-- Claim C5, counterexample: on the request `"a/b"` every step-1-to-4
candidate fails, the detector yields the root `"/sdcard"`, and the path the
claim says is attempted — the root joined with the basename `"b"` — opens;
yet resolution returns not-found, because the source keeps the interior
path separators of the input (it only strips a single leading slash) and so
attempts `"/sdcard/a/b"` instead of `"/sdcard/b"`. -/
theorem resolver_lastResort_cex :
    openFileWithPrefixes exFs5 "a/b" = none ∧
    (∀ c ∈ candidates14 (normalizeReq "a/b"), exFs5.openOk c = false) ∧
    detectSdRoot exFs5 = some "/sdcard" ∧
    exFs5.openOk ("/sdcard" ++ "/" ++ basenameStr "a/b") = true := by
  decide

/-- Claim C5 as amended: for every non-empty input on which resolution
steps 1-4 fail, the last-resort step consults `detectSdRoot` and, if it
yields a root, attempts the root joined with the input stripped of a single
leading slash only (interior directory components are kept, not reduced to
the basename), succeeding exactly when that candidate opens. -/
theorem resolver_lastResort (fs : SdFS) (reqFile : String)
    (hne : reqFile.length ≠ 0)
    (h14 : ∀ c ∈ candidates14 (normalizeReq reqFile), fs.openOk c = false) :
    openFileWithPrefixes fs reqFile =
      match step5Candidate fs (normalizeReq reqFile) with
      | none => none
      | some c => if fs.openOk c then some c else none := by
  rw [openFileWithPrefixes_eq_firstOpen fs reqFile hne]
  unfold resolveCandidates
  rw [firstOpen_append, (firstOpen_eq_none fs _).mpr h14]
  cases step5Candidate fs (normalizeReq reqFile) <;> simp [firstOpen]

theorem resolver_lastResort_witness :
    "nonexistent".length ≠ 0 ∧
    (∀ c ∈ candidates14 (normalizeReq "nonexistent"),
      exFsClosed.openOk c = false) ∧
    openFileWithPrefixes exFsClosed "nonexistent" =
      (match step5Candidate exFsClosed (normalizeReq "nonexistent") with
       | none => none
       | some c => if exFsClosed.openOk c then some c else none) :=
  ⟨by decide, by decide,
    resolver_lastResort exFsClosed "nonexistent" (by decide) (by decide)⟩

/-- Claim C6: once the count of non-directory entries directly under the
detected root is at or under the configured positive limit, the retention
enforcer deletes nothing. -/
theorem enforce_atOrUnderLimit_noop (fs : SdFS) (maxKeep : Nat)
    (root : String)
    (hk : 0 < maxKeep)
    (hroot : detectSdRoot fs = some root)
    (hcnt : (baseNames fs root).length ≤ maxKeep) :
    sdws_enforceRetentionPolicy maxKeep fs = [] := by
  unfold sdws_enforceRetentionPolicy
  rw [if_neg (Nat.pos_iff_ne_zero.mp hk), hroot]
  by_cases ho : fs.openOk root = false
  · simp [ho]
  · simp [ho, hcnt]

theorem enforce_atOrUnderLimit_noop_witness :
    0 < 4 ∧ detectSdRoot exFs3 = some "/" ∧
    (baseNames exFs3 "/").length ≤ 4 ∧
    sdws_enforceRetentionPolicy 4 exFs3 = [] :=
  ⟨by decide, by decide, by decide,
    enforce_atOrUnderLimit_noop exFs3 4 "/" (by decide) (by decide)
      (by decide)⟩

/-- Claim C7: with the retention limit configured to zero, the enforcer
issues no removal at all, whatever the state of the volume. -/
theorem enforce_limitZero_noop (fs : SdFS) :
    sdws_enforceRetentionPolicy 0 fs = [] := by
  unfold sdws_enforceRetentionPolicy
  simp

/-- Claim C8: for every directory tree both renderings of the Directory
Lister — the HTML one and the serial diagnostic one — emit exactly the
depth-first pre-order contract sequence, entry for entry: each directory is
reported before any of its children, the traversal recurses into every
subdirectory, and each non-directory entry carries its size. -/
theorem lister_preorder (pre : String) (ts : List FsTree) :
    printDirectoryHtmlAt ts = (listContract pre ts).map renderHtmlEntry ∧
    printDirectorySerial pre ts =
      (listContract pre ts).map renderSerialEntry :=
  ⟨printDirectoryHtmlAt_eq pre ts, printDirectorySerial_eq pre ts⟩

/-- Claim C9, counterexample: on the saved path `"/sdcard//a"` the snap
handler produces `"a"` — it strips the `/sdcard/` prefix and then also a
remaining single leading slash — while the claim's "otherwise" reading
(strip `/sdcard/` or, only failing that, one leading `/`) would produce
`"/a"`. -/
theorem snapRel_claim_cex :
    snapRel "/sdcard//a" = "a" ∧
    snapRelClaim "/sdcard//a" = "/a" ∧
    snapRel "/sdcard//a" ≠ snapRelClaim "/sdcard//a" := by
  decide

/-- Claim C9 as amended: the snap handler strips a leading `/sdcard/`
prefix if present and then additionally a single leading `/` if one
remains; for a saved path `/sdcard/x` with `x` non-empty, not
slash-leading and already normalized, the embedded reference is exactly
`x`, and whenever the saved file opens while the bare reference does not
open verbatim, the resolver's cascade takes the reference back to exactly
the saved file. -/
theorem snap_link_roundtrip (fs : SdFS) (x : String)
    (hx : sstarts x "/" = false)
    (hnorm : normalizeReq x = x)
    (hlen : x.length ≠ 0)
    (hopen : fs.openOk ("/sdcard/" ++ x) = true)
    (hbare : fs.openOk x = false) :
    snapRel ("/sdcard/" ++ x) = x ∧
    openFileWithPrefixes fs (snapRel ("/sdcard/" ++ x)) =
      some ("/sdcard/" ++ x) := by
  have hrel : snapRel ("/sdcard/" ++ x) = x := by
    simp [snapRel, sstarts_append, sdrop_append, hx]
  refine ⟨hrel, ?_⟩
  rw [hrel]
  unfold openFileWithPrefixes
  rw [if_neg hlen, hnorm]
  simp [hbare, hx, hopen]

theorem snap_link_roundtrip_witness :
    sstarts "img_1.jpg" "/" = false ∧
    normalizeReq "img_1.jpg" = "img_1.jpg" ∧
    "img_1.jpg".length ≠ 0 ∧
    exFsSnap.openOk ("/sdcard/" ++ "img_1.jpg") = true ∧
    exFsSnap.openOk "img_1.jpg" = false ∧
    (snapRel ("/sdcard/" ++ "img_1.jpg") = "img_1.jpg" ∧
      openFileWithPrefixes exFsSnap (snapRel ("/sdcard/" ++ "img_1.jpg")) =
        some ("/sdcard/" ++ "img_1.jpg")) :=
  ⟨by decide, by decide, by decide, by decide, by decide,
    snap_link_roundtrip exFsSnap "img_1.jpg" (by decide) (by decide)
      (by decide) (by decide) (by decide)⟩

/-- Claim C10: when the resolved handle refers to a directory, the download
handler answers with the 404 not-found response — the very response sent
when no candidate opens — and closes that handle instead of streaming
it. -/
theorem handleDownload_directory_notFound (fs : SdFS) (fp p : String)
    (hres : openFileWithPrefixes fs fp = some p)
    (hdir : fs.isDirAt p = true) :
    handleDownload fs (some fp) = (.notFound, [p]) := by
  simp [handleDownload, hres, hdir]

theorem handleDownload_directory_notFound_witness :
    openFileWithPrefixes exFsDir "/sub" = some "/sub" ∧
    exFsDir.isDirAt "/sub" = true ∧
    handleDownload exFsDir (some "/sub") = (.notFound, ["/sub"]) :=
  ⟨by decide, by decide,
    handleDownload_directory_notFound exFsDir "/sub" "/sub" (by decide)
      (by decide)⟩

end SdWs
